import Mathlib

/-!
Shallow embedding of the team-billing server
(`sample_code/team_billing/server.py`).

Modelling conventions, fixed once for the whole file:
- identifiers (`uuid.uuid4()` strings in the source) are naturals drawn from a
  fresh-id counter `nextId` carried in the database state; uuid collisions do
  not occur in the source, which the well-formedness predicate `St.WF` captures;
- Python `datetime` values are calendar records compared lexicographically on
  (year, month, day, hour, minute, second, microsecond);
- monetary `float` fields are rationals;
- the SQLite database is a record of lists in insertion order: `session.add`
  appends, `select(...).first()` is `List.find?` in table order, and each
  endpoint body (one `with get_session()` block ending in one `commit`) is a
  single atomic state transition;
- `raise HTTPException(status_code=c, detail=d)` is `Except.error ⟨c, d⟩`;
  the spec-level error kinds map onto the codes used by the source:
  NotFound = 404, Forbidden = 403, Conflict = 400 (detail
  "Invitation already accepted.");
- the call-time `datetime.now()` is an explicit `now : DateTime` argument,
  also used for the `default_factory=datetime.now` columns.
-/

namespace TeamBilling

/-- Calendar datetime (the fields of a Python `datetime`). -/
structure DateTime where
  year : Nat
  month : Nat
  day : Nat
  hour : Nat
  minute : Nat
  second : Nat
  microsecond : Nat
deriving DecidableEq

/-- Mixed-radix encoding of a `DateTime`; strictly monotone with respect to
lexicographic field order for calendar values (month ≤ 12, day ≤ 31,
hour < 24, minute < 60, second < 60, microsecond < 1000000), so comparisons
of keys model Python datetime comparisons. -/
def DateTime.key (d : DateTime) : Nat :=
  (((((d.year * 13 + d.month) * 32 + d.day) * 24 + d.hour) * 60
      + d.minute) * 60 + d.second) * 1000000 + d.microsecond

/-- Row of table `team`. -/
structure Team where
  id : Nat
  name : String
  owner_id : String
  api_key : Nat
  created_at : DateTime
deriving DecidableEq

/-- Row of table `teammember`; composite primary key (team_id, user_id). -/
structure TeamMember where
  team_id : Nat
  user_id : String
  role : String
  joined_at : DateTime
deriving DecidableEq

/-- Row of table `invitation`. -/
structure Invitation where
  id : Nat
  team_id : Nat
  email : String
  role : String
  inviter_id : String
  token : Nat
  created_at : DateTime
  accepted : Bool
deriving DecidableEq

/-- Row of table `usagerecord`. -/
structure UsageRecord where
  id : Nat
  team_id : Nat
  user_id : String
  usage_type : String
  amount : ℚ
  unit : String
  cost : ℚ
  recorded_at : DateTime
deriving DecidableEq

/-- Row of table `invoice`. -/
structure Invoice where
  id : Nat
  team_id : Nat
  period_start : DateTime
  period_end : DateTime
  total : ℚ
  status : String
  created_at : DateTime
deriving DecidableEq

/-- Row of table `invoicelineitem`; the Optional columns are always populated
by their only writer (`generate_invoice`), so they are modelled plain. -/
structure InvoiceLineItem where
  id : Nat
  invoice_id : Nat
  user_id : String
  tokens_used : ℚ
  cost : ℚ
deriving DecidableEq

/-- Row of table `payment`; the Optional columns are always populated by their
only writer (`pay_invoice`), so they are modelled plain. -/
structure Payment where
  id : Nat
  invoice_id : Nat
  method : String
  amount : ℚ
  status : String
  created_at : DateTime
deriving DecidableEq

/-- Error raised through `HTTPException(status_code, detail)`. -/
structure HTTPError where
  status : Nat
  detail : String
deriving DecidableEq

/-- The database: one list per table, in insertion order, plus the fresh-id
counter feeding the uuid default factories. -/
structure St where
  teams : List Team
  members : List TeamMember
  invitations : List Invitation
  usage_records : List UsageRecord
  invoices : List Invoice
  line_items : List InvoiceLineItem
  payments : List Payment
  nextId : Nat
deriving DecidableEq

/-- The freshly created database (`SQLModel.metadata.create_all`). -/
def emptySt : St :=
  { teams := [], members := [], invitations := [], usage_records := []
    invoices := [], line_items := [], payments := [], nextId := 0 }

/-- Updates the first list element satisfying `p` (the ORM pattern of mutating
the row returned by `select ... .first()` and committing). -/
def updateFirst (p : α → Bool) (f : α → α) : List α → List α
  | [] => []
  | x :: xs => if p x then f x :: xs else x :: updateFirst p f xs

/-- Endpoint `POST /teams/create`. Inserts the Team row and the Owner
TeamMember row in the same session and commits once. Returns
(team_id, api_key). -/
def create_team (team_name : String) (owner_user_id : String)
    (now : DateTime) (s : St) : (Nat × Nat) × St :=
  let team : Team :=
    { id := s.nextId, name := team_name, owner_id := owner_user_id
      api_key := s.nextId + 1, created_at := now }
  let owner_member : TeamMember :=
    { team_id := team.id, user_id := owner_user_id, role := "Owner"
      joined_at := now }
  ((team.id, team.api_key),
    { s with teams := s.teams ++ [team]
             members := s.members ++ [owner_member]
             nextId := s.nextId + 2 })

/-- Endpoint `POST /teams/invite`. Returns the invitation token. -/
def invite_team_member (team_id : Nat) (email role inviter_id : String)
    (now : DateTime) (s : St) : Except HTTPError (Nat × St) :=
  match s.members.find? (fun m => m.team_id == team_id && m.user_id == inviter_id) with
  | none => .error ⟨403, "No permission to invite members."⟩
  | some inviter =>
    if inviter.role == "Owner" || inviter.role == "Admin" then
      let invitation : Invitation :=
        { id := s.nextId, team_id := team_id, email := email, role := role
          inviter_id := inviter_id, token := s.nextId + 1, created_at := now
          accepted := false }
      .ok (invitation.token,
        { s with invitations := s.invitations ++ [invitation]
                 nextId := s.nextId + 2 })
    else .error ⟨403, "No permission to invite members."⟩

/-- Endpoint `POST /teams/join`. Looks up the invitation by token, rejects
unknown tokens (404) and already-accepted ones (400), then inserts the
TeamMember row and marks the fetched invitation accepted in one commit.
The commit itself fails on a duplicate (team_id, user_id) primary key,
which surfaces as the 500 IntegrityError branch. -/
def join_team (invitation_token : Nat) (user_id : String)
    (now : DateTime) (s : St) : Except HTTPError (String × St) :=
  match s.invitations.find? (fun i => i.token == invitation_token) with
  | none => .error ⟨404, "Invalid invitation token."⟩
  | some invitation =>
    if invitation.accepted then
      .error ⟨400, "Invitation already accepted."⟩
    else if s.members.any (fun m =>
        m.team_id == invitation.team_id && m.user_id == user_id) then
      .error ⟨500, "IntegrityError"⟩
    else
      let member : TeamMember :=
        { team_id := invitation.team_id, user_id := user_id
          role := invitation.role, joined_at := now }
      .ok ("Joined team successfully.",
        { s with members := s.members ++ [member]
                 invitations := updateFirst (fun i => i.token == invitation_token)
                   (fun i => { i with accepted := true }) s.invitations })

/-- Endpoint `GET /teams/\x7bteam_id\x7d/apikey`. Checks membership first,
then team existence. -/
def get_team_api_key (team_id : Nat) (user_id : String) (s : St) :
    Except HTTPError Nat :=
  match s.members.find? (fun m => m.team_id == team_id && m.user_id == user_id) with
  | none => .error ⟨403, "Not a team member."⟩
  | some _ =>
    match s.teams.find? (fun t => t.id == team_id) with
    | none => .error ⟨404, "Team not found."⟩
    | some team => .ok team.api_key

/-- The `now.replace(day=1, hour=0, minute=0, second=0, microsecond=0)` of
`generate_invoice`. -/
def period_startOf (now : DateTime) : DateTime :=
  { now with day := 1, hour := 0, minute := 0, second := 0, microsecond := 0 }

/-- The `next_month` computation of `generate_invoice`: `replace` changes only
the named fields, so hour, minute, second and microsecond keep the values of
`now`. -/
def period_endOf (now : DateTime) : DateTime :=
  if now.month == 12 then { now with year := now.year + 1, month := 1, day := 1 }
  else { now with month := now.month + 1, day := 1 }

/-- The WHERE clause of the aggregation query of `generate_invoice`. -/
def matchesWindow (team_id : Nat) (period_start period_end : DateTime)
    (u : UsageRecord) : Bool :=
  u.team_id == team_id && u.usage_type == "inference"
    && decide (period_start.key ≤ u.recorded_at.key)
    && decide (u.recorded_at.key < period_end.key)

/-- Result set of `select(UsageRecord).where(...).group_by(UsageRecord.user_id)`:
a GROUP BY over whole rows with no aggregate function, for which SQLite
returns one row per distinct `user_id` with the bare columns taken from some
row of the group; modelled as the first row of each group in table order
(`seen` accumulates the user ids whose group already produced its row). -/
def groupReps (seen : List String) : List UsageRecord → List UsageRecord
  | [] => []
  | u :: us =>
    if seen.contains u.user_id then groupReps seen us
    else u :: groupReps (u.user_id :: seen) us

/-- The loop of `generate_invoice` creating one InvoiceLineItem per row of the
breakdown, each with a fresh uuid. -/
def mkLineItems (invoice_id firstId : Nat) :
    List UsageRecord → List InvoiceLineItem
  | [] => []
  | m :: ms =>
    { id := firstId, invoice_id := invoice_id, user_id := m.user_id
      tokens_used := m.amount, cost := m.cost }
      :: mkLineItems invoice_id (firstId + 1) ms

/-- Endpoint `POST /billing/invoice/generate`. Computes the current-month
window from `now`, runs the grouped usage query, sums `m.cost or 0` over the
returned rows into `total` (cost is a non-null column, so `or 0` keeps the
value), inserts the Invoice row and its line items, and commits once.
Returns the invoice row and the created line items. -/
def generate_invoice (team_id : Nat) (now : DateTime) (s : St) :
    (Invoice × List InvoiceLineItem) × St :=
  let period_start := period_startOf now
  let period_end := period_endOf now
  let member_breakdown :=
    groupReps [] (s.usage_records.filter (matchesWindow team_id period_start period_end))
  let total := (member_breakdown.map (fun m => m.cost)).sum
  let invoice : Invoice :=
    { id := s.nextId, team_id := team_id, period_start := period_start
      period_end := period_end, total := total, status := "pending"
      created_at := now }
  let items := mkLineItems invoice.id (s.nextId + 1) member_breakdown
  ((invoice, items),
    { s with invoices := s.invoices ++ [invoice]
             line_items := s.line_items ++ items
             nextId := s.nextId + 1 + member_breakdown.length })

/-- Endpoint `POST /usage/log`. Unconditional insert of one UsageRecord;
no team-existence check is performed. -/
def log_usage (team_id : Nat) (user_id usage_type : String) (amount : ℚ)
    (unit : String) (cost : ℚ) (now : DateTime) (s : St) : String × St :=
  let usage : UsageRecord :=
    { id := s.nextId, team_id := team_id, user_id := user_id
      usage_type := usage_type, amount := amount, unit := unit, cost := cost
      recorded_at := now }
  ("Usage logged.",
    { s with usage_records := s.usage_records ++ [usage]
             nextId := s.nextId + 1 })

/-- Endpoint `POST /billing/invoice/\x7binvoice_id\x7d/pay`. Looks up the
invoice (404 if absent), sets the fetched row status to "paid", inserts a
Payment row with amount 0 and status "paid", and commits once. -/
def pay_invoice (invoice_id : Nat) (method : String) (now : DateTime)
    (s : St) : Except HTTPError (String × St) :=
  match s.invoices.find? (fun i => i.id == invoice_id) with
  | none => .error ⟨404, "Invoice not found."⟩
  | some _ =>
    let payment : Payment :=
      { id := s.nextId, invoice_id := invoice_id, method := method
        amount := 0, status := "paid", created_at := now }
    .ok ("paid",
      { s with invoices := updateFirst (fun i => i.id == invoice_id)
                 (fun i => { i with status := "paid" }) s.invoices
               payments := s.payments ++ [payment]
               nextId := s.nextId + 1 })

/-- One call to any state-changing endpoint, with its call-time `now`. -/
inductive Op
  | createTeam (team_name owner_user_id : String) (now : DateTime)
  | invite (team_id : Nat) (email role inviter_id : String) (now : DateTime)
  | join (invitation_token : Nat) (user_id : String) (now : DateTime)
  | genInvoice (team_id : Nat) (now : DateTime)
  | logUsage (team_id : Nat) (user_id usage_type : String) (amount : ℚ)
      (unit : String) (cost : ℚ) (now : DateTime)
  | pay (invoice_id : Nat) (method : String) (now : DateTime)

/-- State reached after one endpoint call; a failing call rolls back and
leaves the database unchanged. -/
def Op.apply (s : St) : Op → St
  | createTeam n o now => (create_team n o now s).2
  | invite t e r i now =>
    match invite_team_member t e r i now s with
    | .ok (_, s2) => s2
    | .error _ => s
  | join tok u now =>
    match join_team tok u now s with
    | .ok (_, s2) => s2
    | .error _ => s
  | genInvoice t now => (generate_invoice t now s).2
  | logUsage t u ty a un c now => (log_usage t u ty a un c now s).2
  | pay i m now =>
    match pay_invoice i m now s with
    | .ok (_, s2) => s2
    | .error _ => s

/-- Well-formedness: every stored id that the uuid factories produced is below
the fresh-id counter, so a freshly drawn id collides with no existing row
(the model of uuid uniqueness). -/
def St.WF (s : St) : Prop :=
  (∀ t ∈ s.teams, t.id < s.nextId) ∧
  (∀ m ∈ s.members, m.team_id < s.nextId) ∧
  (∀ i ∈ s.invitations, i.team_id < s.nextId) ∧
  (∀ v ∈ s.invoices, v.id < s.nextId) ∧
  (∀ li ∈ s.line_items, li.invoice_id < s.nextId)

/-- Sum of the cost column over the line items of one invoice. -/
def itemsTotal (s : St) (invoice_id : Nat) : ℚ :=
  ((s.line_items.filter (fun li => li.invoice_id == invoice_id)).map
    (fun li => li.cost)).sum

/-- Status of the invoice with a given id, read back from the store. -/
def invoiceStatus (s : St) (invoice_id : Nat) : Option String :=
  (s.invoices.find? (fun i => i.id == invoice_id)).map Invoice.status

/-- Per-state invariant of claim-level interest: every stored invoice total
equals the sum of the costs of its stored line items. -/
def InvoiceInv (s : St) : Prop :=
  ∀ v ∈ s.invoices, v.total = itemsTotal s v.id

/-! Concrete sample data used by closed theorems: the scenario of the test
suite (team "Test Team" owned by user_123, inference usage logged during
June 2025, invoice generated on 2025-06-15 at 10:30). -/

/-- Sample call time 2025-06-10 12:00:00. -/
def dEx : DateTime := ⟨2025, 6, 10, 12, 0, 0, 0⟩

/-- Sample call time of the first usage insert. -/
def dEx1 : DateTime := ⟨2025, 6, 10, 12, 0, 0, 1⟩

/-- Sample call time of the second usage insert. -/
def dEx2 : DateTime := ⟨2025, 6, 10, 12, 0, 0, 2⟩

/-- Sample invoice-generation time 2025-06-15 10:30:00. -/
def nowEx : DateTime := ⟨2025, 6, 15, 10, 30, 0, 0⟩

/-- State after `create_team "Test Team" "user_123"`: team id 0, api key 1. -/
def stTeam : St := (create_team "Test Team" "user_123" dEx emptySt).2

/-- State after logging 1000 tokens at cost 1 for user_123. -/
def stOneUse : St := (log_usage 0 "user_123" "inference" 1000 "tokens" 1 dEx1 stTeam).2

/-- State after additionally logging 2000 tokens at cost 2 for user_123. -/
def stTwoUse : St := (log_usage 0 "user_123" "inference" 2000 "tokens" 2 dEx2 stOneUse).2

/-- A database holding one already-accepted invitation with token 5. -/
def stInvAccepted : St :=
  { emptySt with
      invitations := [⟨0, 0, "new@example.com", "Member", "user_123", 5, dEx, true⟩]
      nextId := 6 }

/-- A database holding one open invitation with token 5. -/
def stInvOpen : St :=
  { emptySt with
      invitations := [⟨0, 0, "new@example.com", "Member", "user_123", 5, dEx, false⟩]
      nextId := 6 }

/-- The state reached from `stInvOpen` by accepting token 5 as user_456. -/
def stJoined : St :=
  { stInvOpen with
      members := [⟨0, "user_456", "Member", dEx⟩]
      invitations := [⟨0, 0, "new@example.com", "Member", "user_123", 5, dEx, true⟩] }

/-- A database holding one paid invoice with id 0 and one pending invoice
with id 1. -/
def stPaidInvoice : St :=
  { emptySt with
      invoices :=
        [⟨0, 0, dEx, nowEx, 3, "paid", nowEx⟩, ⟨1, 0, dEx, nowEx, 4, "pending", nowEx⟩]
      nextId := 2 }

/-- The state reached from `stPaidInvoice` by paying invoice 1 by card. -/
def stPaidAfter : St :=
  { stPaidInvoice with
      invoices := [⟨0, 0, dEx, nowEx, 3, "paid", nowEx⟩, ⟨1, 0, dEx, nowEx, 4, "paid", nowEx⟩]
      payments := [⟨2, 1, "card", 0, "paid", nowEx⟩]
      nextId := 3 }

/-! Helper lemmas about the list combinators of the embedding. -/

theorem updateFirst_find?_self (p : α → Bool) (f : α → α)
    (hf : ∀ x, p x = true → p (f x) = true) (l : List α) :
    (updateFirst p f l).find? p = (l.find? p).map f := by
  induction l with
  | nil => rfl
  | cons x xs ih =>
    by_cases hx : p x = true
    · simp [updateFirst, hx, List.find?_cons_of_pos, hf x hx]
    · simp [updateFirst, hx, List.find?_cons_of_neg, ih]

theorem mem_updateFirst (p : α → Bool) (f : α → α) (l : List α) :
    ∀ y ∈ updateFirst p f l, y ∈ l ∨ ∃ x, x ∈ l ∧ y = f x := by
  induction l with
  | nil => simp [updateFirst]
  | cons x xs ih =>
    intro y hy
    by_cases hx : p x = true
    · simp only [updateFirst, hx, if_true, List.mem_cons] at hy
      rcases hy with h1 | h2
      · exact Or.inr ⟨x, List.mem_cons_self _ _, h1⟩
      · exact Or.inl (List.mem_cons_of_mem _ h2)
    · simp only [updateFirst, hx, if_false, List.mem_cons, Bool.false_eq_true] at hy
      rcases hy with h1 | h2
      · exact Or.inl (h1 ▸ List.mem_cons_self _ _)
      · rcases ih y h2 with h | ⟨x2, hx2, hy2⟩
        · exact Or.inl (List.mem_cons_of_mem _ h)
        · exact Or.inr ⟨x2, List.mem_cons_of_mem _ hx2, hy2⟩

theorem paid_after_updateFirst (iid jid : Nat) (l : List Invoice)
    (h : (l.find? (fun i => i.id == iid)).map Invoice.status = some "paid") :
    ((updateFirst (fun i => i.id == jid) (fun i => { i with status := "paid" })
        l).find? (fun i => i.id == iid)).map Invoice.status = some "paid" := by
  induction l with
  | nil => simp at h
  | cons v t ih =>
    simp only [updateFirst]
    cases hj : (v.id == jid) with
    | true =>
      simp only [if_pos rfl]
      cases hi : (v.id == iid) with
      | true =>
        simp [List.find?_cons, hi]
      | false =>
        simp only [List.find?_cons, hi] at h
        simpa [List.find?_cons, hi] using h
    | false =>
      simp only [Bool.false_eq_true, if_neg, ite_false]
      cases hi : (v.id == iid) with
      | true =>
        simp only [List.find?_cons, hi] at h
        simpa [List.find?_cons, hi] using h
      | false =>
        simp only [List.find?_cons, hi] at h
        simpa [List.find?_cons, hi] using ih h

theorem mkLineItems_map_cost (invId fid : Nat) (ms : List UsageRecord) :
    (mkLineItems invId fid ms).map (fun li => li.cost)
      = ms.map (fun m => m.cost) := by
  induction ms generalizing fid with
  | nil => rfl
  | cons m t ih => simp [mkLineItems, ih]

theorem mkLineItems_invoice_id (invId fid : Nat) (ms : List UsageRecord) :
    ∀ li ∈ mkLineItems invId fid ms, li.invoice_id = invId := by
  induction ms generalizing fid with
  | nil => simp [mkLineItems]
  | cons m t ih =>
    intro li hli
    simp only [mkLineItems, List.mem_cons] at hli
    rcases hli with h | h
    · simp [h]
    · exact ih _ li h


theorem invite_state {team_id : Nat} {email role inviter_id : String}
    {now : DateTime} {s : St} {tok : Nat} {s2 : St}
    (h : invite_team_member team_id email role inviter_id now s = .ok (tok, s2)) :
    s2.invoices = s.invoices ∧ s2.line_items = s.line_items
      ∧ s2.usage_records = s.usage_records ∧ s2.teams = s.teams
      ∧ s2.members = s.members ∧ s2.payments = s.payments := by
  unfold invite_team_member at h
  split at h
  · cases h
  · split at h
    · injection h with h2
      injection h2 with h3 h4
      subst h4
      exact ⟨rfl, rfl, rfl, rfl, rfl, rfl⟩
    · cases h

theorem join_state {tok : Nat} {u : String} {now : DateTime} {s : St}
    {msg : String} {s2 : St}
    (h : join_team tok u now s = .ok (msg, s2)) :
    ∃ inv, s.invitations.find? (fun i => i.token == tok) = some inv
      ∧ inv.accepted = false
      ∧ msg = "Joined team successfully."
      ∧ s2 = { s with
          members := s.members ++ [⟨inv.team_id, u, inv.role, now⟩]
          invitations := updateFirst (fun i => i.token == tok)
            (fun i => { i with accepted := true }) s.invitations } := by
  unfold join_team at h
  split at h
  · cases h
  · rename_i inv hf
    split at h
    · cases h
    · rename_i ha
      split at h
      · cases h
      · injection h with h2
        injection h2 with h3 h4
        exact ⟨inv, hf, Bool.not_eq_true _ ▸ ha, h3.symm, h4.symm⟩

theorem pay_state {iid : Nat} {meth : String} {now : DateTime} {s : St}
    {msg : String} {s2 : St}
    (h : pay_invoice iid meth now s = .ok (msg, s2)) :
    msg = "paid"
      ∧ (s.invoices.find? (fun i => i.id == iid)).isSome = true
      ∧ s2 = { s with
          invoices := updateFirst (fun i => i.id == iid)
            (fun i => { i with status := "paid" }) s.invoices
          payments := s.payments
            ++ [⟨s.nextId, iid, meth, 0, "paid", now⟩]
          nextId := s.nextId + 1 } := by
  unfold pay_invoice at h
  split at h
  · cases h
  · rename_i inv hf
    injection h with h2
    injection h2 with h3 h4
    exact ⟨h3.symm, by rw [hf]; rfl, h4.symm⟩
/-! Claim theorems. -/

/-- C1 (code evidence): on team 0 with two matching inference records for
user_123 (costs 1 and 2, amounts 1000 and 2000, both inside the window),
the generated invoice has total 1 — the cost of the single representative
row SQLite returns for the GROUP BY without aggregation — and its only line
item has tokens_used 1000, while the exact sum of cost over all matching
records is 3 and the exact sum of amount for user_123 is 3000. The claim
(total = exact sum of matching costs, tokens_used = per-user sum of amounts)
fails on this input; records beyond the first of each user are dropped,
contradicting the in-source comment "Aggregate usage per user". -/
theorem generate_invoice_drops_duplicate_user_records :
    ((generate_invoice 0 nowEx stTwoUse).1.1).total = 1
    ∧ ((generate_invoice 0 nowEx stTwoUse).1.2).map (fun li => li.tokens_used) = [1000]
    ∧ ((stTwoUse.usage_records.filter
          (matchesWindow 0 (period_startOf nowEx) (period_endOf nowEx))).map
        (fun u => u.cost)).sum = 3
    ∧ ((stTwoUse.usage_records.filter (fun u =>
          matchesWindow 0 (period_startOf nowEx) (period_endOf nowEx) u
            && u.user_id == "user_123")).map (fun u => u.amount)).sum = 3000 := by
  refine ⟨?_, ?_, ?_, ?_⟩ <;>
    norm_num [stTwoUse, stOneUse, stTeam, emptySt, create_team, log_usage,
      generate_invoice, groupReps, mkLineItems, matchesWindow,
      period_startOf, period_endOf, DateTime.key, dEx, dEx1, dEx2, nowEx]

/-- C3 (counterexample): on the empty database, team 0 does not exist, yet
`get_team_api_key` returns Forbidden (403, "Not a team member."), not
NotFound — the membership check runs before the team-existence check, so a
nonexistent team never yields NotFound for a non-member requester. -/
theorem get_team_api_key_unknown_team_forbidden :
    emptySt.teams.find? (fun t => t.id == 0) = none
    ∧ get_team_api_key 0 "user_123" emptySt = .error ⟨403, "Not a team member."⟩
    ∧ get_team_api_key 0 "user_123" emptySt ≠ .error ⟨404, "Team not found."⟩ := by
  refine ⟨rfl, rfl, fun h => ?_⟩
  have h2 : (⟨403, "Not a team member."⟩ : HTTPError) = ⟨404, "Team not found."⟩ :=
    Except.error.inj (rfl.trans h)
  exact absurd h2 (by decide)

/-- C3 (amended): `get_team_api_key` fails with Forbidden (403) whenever the
requester has no TeamMember row for the team — including when the team does
not exist; it fails with NotFound (404) only when a membership row exists
but the Team row does not; and when both a membership row and the Team row
exist it returns the api_key of the first stored team with that id. -/
theorem get_team_api_key_membership_checked_first (s : St) (tid : Nat) (uid : String) :
    (s.members.find? (fun m => m.team_id == tid && m.user_id == uid) = none →
      get_team_api_key tid uid s = .error ⟨403, "Not a team member."⟩)
    ∧ (∀ m, s.members.find? (fun m2 => m2.team_id == tid && m2.user_id == uid) = some m →
        s.teams.find? (fun t => t.id == tid) = none →
        get_team_api_key tid uid s = .error ⟨404, "Team not found."⟩)
    ∧ (∀ m t, s.members.find? (fun m2 => m2.team_id == tid && m2.user_id == uid) = some m →
        s.teams.find? (fun t2 => t2.id == tid) = some t →
        get_team_api_key tid uid s = .ok t.api_key) := by
  refine ⟨fun h => ?_, fun m hm ht => ?_, fun m t hm ht => ?_⟩ <;>
    unfold get_team_api_key
  · rw [h]
  · rw [hm, ht]
  · rw [hm, ht]

/-- Witness for the amended C3 theorem at concrete inputs: after creating
"Test Team", the owner reads back api_key 1. -/
theorem get_team_api_key_membership_checked_first_witness :
    get_team_api_key 0 "user_123" stTeam = .ok 1 :=
  (get_team_api_key_membership_checked_first stTeam 0 "user_123").2.2
    ⟨0, "user_123", "Owner", dEx⟩ ⟨0, "Test Team", "user_123", 1, dEx⟩ rfl rfl

/-- C4 (counterexample): on the empty database team 99 does not exist, yet
`log_usage` succeeds and appends the record — there is no team-existence
check and no NotFound failure. -/
theorem log_usage_missing_team_still_succeeds :
    emptySt.teams.find? (fun t => t.id == 99) = none
    ∧ (log_usage 99 "user_123" "inference" 1000 "tokens" 1 dEx emptySt).1
        = "Usage logged."
    ∧ (log_usage 99 "user_123" "inference" 1000 "tokens" 1 dEx emptySt).2.usage_records
        = [⟨0, 99, "user_123", "inference", 1000, "tokens", 1, dEx⟩] :=
  ⟨rfl, rfl, rfl⟩

/-- C4 (amended): `log_usage` always succeeds, whether or not the team
exists, appending exactly one UsageRecord that stores team_id, user_id,
usage_type, amount, unit and cost verbatim, and it touches no other table. -/
theorem log_usage_unconditional_append (s : St) (tid : Nat) (uid ty : String)
    (amt : ℚ) (unitStr : String) (c : ℚ) (now : DateTime) :
    (log_usage tid uid ty amt unitStr c now s).1 = "Usage logged."
    ∧ (log_usage tid uid ty amt unitStr c now s).2.usage_records
        = s.usage_records ++ [⟨s.nextId, tid, uid, ty, amt, unitStr, c, now⟩]
    ∧ (log_usage tid uid ty amt unitStr c now s).2.teams = s.teams
    ∧ (log_usage tid uid ty amt unitStr c now s).2.members = s.members
    ∧ (log_usage tid uid ty amt unitStr c now s).2.invoices = s.invoices
    ∧ (log_usage tid uid ty amt unitStr c now s).2.line_items = s.line_items
    ∧ (log_usage tid uid ty amt unitStr c now s).2.payments = s.payments :=
  ⟨rfl, rfl, rfl, rfl, rfl, rfl, rfl⟩

/-- C5 (counterexample): generating an invoice at 2025-06-15 10:30:00 stores
period_end 2025-07-01 10:30:00 — day 1 of the next month at the call
time-of-day — not the first instant 2025-07-01 00:00:00 of the next month,
because `replace(month=..., day=1)` leaves hour, minute, second and
microsecond untouched. -/
theorem generate_invoice_period_end_not_midnight :
    ((generate_invoice 0 nowEx emptySt).1.1).period_end = ⟨2025, 7, 1, 10, 30, 0, 0⟩
    ∧ ((generate_invoice 0 nowEx emptySt).1.1).period_end ≠ ⟨2025, 7, 1, 0, 0, 0, 0⟩ :=
  ⟨rfl, by decide⟩

/-- C5 (amended): the default window has period_start = first instant of the
month of the call (day 1, 00:00:00.000000) and period_end = day 1 of the
following month at the time-of-day of the call (hour, minute, second and
microsecond keep the values of now); a usage record is considered exactly
when it belongs to the team, has usage_type "inference", and its recorded_at
lies in the half-open interval [period_start, period_end). -/
theorem generate_invoice_window_fields (s : St) (tid : Nat) (now : DateTime) :
    ((generate_invoice tid now s).1.1).period_start
        = ⟨now.year, now.month, 1, 0, 0, 0, 0⟩
    ∧ ((generate_invoice tid now s).1.1).period_end
        = (if now.month = 12
           then ⟨now.year + 1, 1, 1, now.hour, now.minute, now.second, now.microsecond⟩
           else ⟨now.year, now.month + 1, 1, now.hour, now.minute, now.second, now.microsecond⟩)
    ∧ (∀ u ∈ s.usage_records,
        matchesWindow tid (period_startOf now) (period_endOf now) u = true
          ↔ (u.team_id = tid ∧ u.usage_type = "inference"
              ∧ (period_startOf now).key ≤ u.recorded_at.key
              ∧ u.recorded_at.key < (period_endOf now).key)) := by
  refine ⟨rfl, ?_, ?_⟩
  · show period_endOf now = _
    by_cases h : now.month = 12 <;> simp [period_endOf, h]
  · intro u hu
    simp [matchesWindow, and_assoc]

/-- Witness for the amended C5 theorem: applied to the single-record database
`stOneUse` at call time `nowEx` and to a December call time. -/
theorem generate_invoice_window_fields_witness :
    ((generate_invoice 0 nowEx stOneUse).1.1).period_start = ⟨2025, 6, 1, 0, 0, 0, 0⟩
    ∧ ((generate_invoice 0 ⟨2025, 12, 15, 10, 30, 0, 0⟩ stOneUse).1.1).period_end
        = ⟨2026, 1, 1, 10, 30, 0, 0⟩
    ∧ (matchesWindow 0 (period_startOf nowEx) (period_endOf nowEx)
          ⟨2, 0, "user_123", "inference", 1000, "tokens", 1, dEx1⟩ = true
        ↔ ((0 : Nat) = 0 ∧ "inference" = "inference"
            ∧ (period_startOf nowEx).key ≤ (dEx1 : DateTime).key
            ∧ (dEx1 : DateTime).key < (period_endOf nowEx).key)) := by
  refine ⟨(generate_invoice_window_fields stOneUse 0 nowEx).1, ?_, ?_⟩
  · have h := (generate_invoice_window_fields stOneUse 0 ⟨2025, 12, 15, 10, 30, 0, 0⟩).2.1
    simpa using h
  · have h := (generate_invoice_window_fields stOneUse 0 nowEx).2.2
      ⟨2, 0, "user_123", "inference", 1000, "tokens", 1, dEx1⟩
      (by simp [stOneUse, stTeam, emptySt, create_team, log_usage])
    simpa using h

/-- C6 (counterexample): on the empty database team 7 does not exist, yet
`generate_invoice` does not fail: it returns and stores a pending invoice
with total 0 and no line items — NotFound is never raised, so "fails with
NotFound iff the team does not exist" is false. -/
theorem generate_invoice_unknown_team_not_an_error :
    emptySt.teams.find? (fun t => t.id == 7) = none
    ∧ ((generate_invoice 7 nowEx emptySt).1.1).status = "pending"
    ∧ ((generate_invoice 7 nowEx emptySt).1.1).total = 0
    ∧ (generate_invoice 7 nowEx emptySt).1.2 = []
    ∧ (generate_invoice 7 nowEx emptySt).2.invoices
        = [(generate_invoice 7 nowEx emptySt).1.1] :=
  ⟨rfl, rfl, rfl, rfl, rfl⟩

/-- C6 (amended): `generate_invoice` never fails — it is a total operation
that always inserts exactly one new invoice, for existing and nonexistent
teams alike; whenever no usage record matches the window it returns a
pending invoice with total 0 and no line items, leaving the line-item table
unchanged. -/
theorem generate_invoice_total_operation (s : St) (tid : Nat) (now : DateTime) :
    ((generate_invoice tid now s).1.1).status = "pending"
    ∧ (generate_invoice tid now s).2.invoices
        = s.invoices ++ [(generate_invoice tid now s).1.1]
    ∧ (s.usage_records.filter
          (matchesWindow tid (period_startOf now) (period_endOf now)) = [] →
        ((generate_invoice tid now s).1.1).total = 0
          ∧ (generate_invoice tid now s).1.2 = []
          ∧ (generate_invoice tid now s).2.line_items = s.line_items) := by
  refine ⟨rfl, rfl, fun h => ?_⟩
  refine ⟨?_, ?_, ?_⟩ <;>
    simp only [generate_invoice, h, groupReps, mkLineItems, List.map_nil,
      List.sum_nil, List.append_nil]

/-- Witness for the amended C6 theorem: the empty database has no matching
records, and the generated invoice is a zero-total pending invoice. -/
theorem generate_invoice_total_operation_witness :
    ((generate_invoice 3 nowEx emptySt).1.1).total = 0
    ∧ (generate_invoice 3 nowEx emptySt).1.2 = [] := by
  have h := (generate_invoice_total_operation emptySt 3 nowEx).2.2 rfl
  exact ⟨h.1, h.2.1⟩

/-- C2: `join_team` fails with NotFound (404) when no invitation carries the
token; fails with the Conflict signal (400, "Invitation already accepted.")
when the invitation found for the token is already accepted; and on success
appends exactly one TeamMember row whose team_id and role are copied from
the invitation and marks that invitation accepted, so that any later call
with the same token — any user, any time — fails with the Conflict signal:
acceptance succeeds at most once per token. -/
theorem accept_invitation_at_most_once (s : St) (tok : Nat) (u : String) (now : DateTime) :
    (s.invitations.find? (fun i => i.token == tok) = none →
      join_team tok u now s = .error ⟨404, "Invalid invitation token."⟩)
    ∧ (∀ inv, s.invitations.find? (fun i => i.token == tok) = some inv →
        inv.accepted = true →
        join_team tok u now s = .error ⟨400, "Invitation already accepted."⟩)
    ∧ (∀ msg s2, join_team tok u now s = .ok (msg, s2) →
        ∃ inv, s.invitations.find? (fun i => i.token == tok) = some inv
          ∧ inv.accepted = false
          ∧ s2.members = s.members ++ [⟨inv.team_id, u, inv.role, now⟩]
          ∧ (∀ u2 now2, join_team tok u2 now2 s2
              = .error ⟨400, "Invitation already accepted."⟩)) := by
  refine ⟨fun h => ?_, fun inv hf ha => ?_, fun msg s2 h => ?_⟩
  · unfold join_team; rw [h]
  · unfold join_team; rw [hf]
    show (if inv.accepted = true then _ else _) = _
    rw [if_pos ha]
  · obtain ⟨inv, hf, ha, hmsg, hs⟩ := join_state h
    refine ⟨inv, hf, ha, by rw [hs], fun u2 now2 => ?_⟩
    have hfind2 : s2.invitations.find? (fun i => i.token == tok)
        = some { inv with accepted := true } := by
      rw [hs]
      show (updateFirst (fun i => i.token == tok)
          (fun i => { i with accepted := true }) s.invitations).find?
            (fun i => i.token == tok) = _
      rw [updateFirst_find?_self (fun i => i.token == tok)
        (fun i => { i with accepted := true }) (fun x hx => hx)
        s.invitations, hf]
      rfl
    unfold join_team
    rw [hfind2]
    rfl

/-- Witness for the C2 theorem: unknown token 5 on the empty database gives
404; an accepted invitation gives 400; and after a successful acceptance the
same token gives 400 for a different user at a different time. -/
theorem accept_invitation_at_most_once_witness :
    join_team 5 "user_9" dEx emptySt = .error ⟨404, "Invalid invitation token."⟩
    ∧ join_team 5 "user_8" dEx stInvAccepted = .error ⟨400, "Invitation already accepted."⟩
    ∧ join_team 5 "user_7" dEx1 stJoined = .error ⟨400, "Invitation already accepted."⟩ := by
  refine ⟨(accept_invitation_at_most_once emptySt 5 "user_9" dEx).1 rfl,
    (accept_invitation_at_most_once stInvAccepted 5 "user_8" dEx).2.1
      ⟨0, 0, "new@example.com", "Member", "user_123", 5, dEx, true⟩ rfl rfl, ?_⟩
  obtain ⟨inv, -, -, -, hsecond⟩ :=
    (accept_invitation_at_most_once stInvOpen 5 "user_456" dEx).2.2
      "Joined team successfully." stJoined rfl
  exact hsecond "user_7" dEx1

/-- C10: every Payment row written by a successful `pay_invoice` carries
amount 0 and status "paid", whatever the invoice total and the supplied
method are — the invoice total is never recorded on the Payment. -/
theorem payment_rows_zero_amount (s : St) (iid : Nat) (meth : String)
    (now : DateTime) (msg : String) (s2 : St)
    (h : pay_invoice iid meth now s = .ok (msg, s2)) :
    s2.payments = s.payments ++ [⟨s.nextId, iid, meth, 0, "paid", now⟩] := by
  obtain ⟨-, -, hs⟩ := pay_state h
  rw [hs]

/-- Witness for the C10 theorem: paying invoice 1 (total 4) by card records
the Payment with amount 0 and status "paid". -/
theorem payment_rows_zero_amount_witness :
    stPaidAfter.payments = stPaidInvoice.payments ++ [⟨2, 1, "card", 0, "paid", nowEx⟩] :=
  payment_rows_zero_amount stPaidInvoice 1 "card" nowEx "paid" stPaidAfter rfl

/-- C7: `create_team` always succeeds and writes the Team row together with
its Owner TeamMember row in the same committed unit of work, so immediately
afterwards the Owner membership row exists and `get_team_api_key` called by
the owner succeeds, returning the api_key of the new team. -/
theorem create_team_creates_owner_membership (s : St) (hWF : s.WF)
    (team_name owner : String) (now : DateTime) :
    (⟨(create_team team_name owner now s).1.1, owner, "Owner", now⟩ : TeamMember)
        ∈ (create_team team_name owner now s).2.members
    ∧ get_team_api_key (create_team team_name owner now s).1.1 owner
        (create_team team_name owner now s).2
      = .ok (create_team team_name owner now s).1.2 := by
  obtain ⟨hteams, hmembers, -, -, -⟩ := hWF
  constructor
  · exact List.mem_append_right _ (List.mem_singleton_self _)
  · have hm : (s.members ++ [(⟨s.nextId, owner, "Owner", now⟩ : TeamMember)]).find?
        (fun m => m.team_id == s.nextId && m.user_id == owner)
        = some ⟨s.nextId, owner, "Owner", now⟩ := by
      rw [List.find?_append]
      have hold : s.members.find?
          (fun m => m.team_id == s.nextId && m.user_id == owner) = none := by
        rw [List.find?_eq_none]
        intro m hmem
        simp only [Bool.and_eq_true, beq_iff_eq, not_and]
        intro h1
        exact absurd h1 (Nat.ne_of_lt (hmembers m hmem))
      rw [hold]
      simp [List.find?]
    have ht : (s.teams ++ [(⟨s.nextId, team_name, owner, s.nextId + 1, now⟩ : Team)]).find?
        (fun t => t.id == s.nextId) = some ⟨s.nextId, team_name, owner, s.nextId + 1, now⟩ := by
      rw [List.find?_append]
      have hold : s.teams.find? (fun t => t.id == s.nextId) = none := by
        rw [List.find?_eq_none]
        intro t htm
        simp only [beq_iff_eq]
        exact Nat.ne_of_lt (hteams t htm)
      rw [hold]
      simp [List.find?]
    simp only [create_team, get_team_api_key]
    rw [hm, ht]

/-- Witness for the C7 theorem: creating "Test Team" on the empty database
yields the Owner membership row and api_key 1 readable by the owner. -/
theorem create_team_creates_owner_membership_witness :
    (⟨0, "user_123", "Owner", dEx⟩ : TeamMember) ∈ stTeam.members
    ∧ get_team_api_key 0 "user_123" stTeam = .ok 1 := by
  have h := create_team_creates_owner_membership emptySt
    (by simp [St.WF, emptySt]) "Test Team" "user_123" dEx
  exact h



/-- C9: every invoice is created by `generate_invoice` with status
"pending"; a successful `pay_invoice` sets the status of the paid invoice to
"paid" and appends one Payment row; `pay_invoice` never fails while the
invoice exists — repeated calls on an already paid invoice are still
accepted; and no operation of the API ever moves an invoice whose status is
"paid" away from "paid": the pending-to-paid transition is one-way. -/
theorem invoice_status_pending_to_paid_one_way (s : St) :
    (∀ tid now, ((generate_invoice tid now s).1.1).status = "pending")
    ∧ (∀ iid meth now msg s2, pay_invoice iid meth now s = .ok (msg, s2) →
        invoiceStatus s2 iid = some "paid"
          ∧ s2.payments.length = s.payments.length + 1)
    ∧ (∀ iid meth now, (s.invoices.find? (fun i => i.id == iid)).isSome = true →
        ∀ e, pay_invoice iid meth now s ≠ .error e)
    ∧ (∀ op : Op, ∀ iid, invoiceStatus s iid = some "paid" →
        invoiceStatus (op.apply s) iid = some "paid") := by
  refine ⟨fun tid now => rfl, fun iid meth now msg s2 h => ?_,
    fun iid meth now hs e hc => ?_, fun op iid h => ?_⟩
  · obtain ⟨-, hsome, hs2⟩ := pay_state h
    constructor
    · rw [hs2]
      simp only [invoiceStatus]
      rw [updateFirst_find?_self (fun i => i.id == iid)
        (fun i => { i with status := "paid" }) (fun x hx => hx) s.invoices]
      obtain ⟨inv, hinv⟩ := Option.isSome_iff_exists.mp hsome
      rw [hinv]
      rfl
    · rw [hs2]
      simp
  · obtain ⟨inv, hinv⟩ := Option.isSome_iff_exists.mp hs
    unfold pay_invoice at hc
    rw [hinv] at hc
    simp at hc
  · cases op with
    | createTeam n o now =>
      simpa [Op.apply, create_team, invoiceStatus] using h
    | invite t e r i now =>
      dsimp only [Op.apply]
      cases hI : invite_team_member t e r i now s with
      | error e2 => simpa using h
      | ok p =>
        obtain ⟨tok2, s2⟩ := p
        obtain ⟨hInvs, -, -, -, -, -⟩ := invite_state hI
        simpa [invoiceStatus, hInvs] using h
    | join tok2 u now =>
      dsimp only [Op.apply]
      cases hJ : join_team tok2 u now s with
      | error e2 => simpa using h
      | ok p =>
        obtain ⟨msg, s2⟩ := p
        obtain ⟨inv, -, -, -, hs2⟩ := join_state hJ
        rw [hs2]
        simpa [invoiceStatus] using h
    | genInvoice t now =>
      simp only [invoiceStatus, Op.apply, generate_invoice] at h ⊢
      rw [List.find?_append]
      cases hf : s.invoices.find? (fun i => i.id == iid) with
      | none => rw [hf] at h; cases h
      | some v =>
        rw [hf] at h
        simp only [Option.or_some]
        exact h
    | logUsage t u2 ty a un c now =>
      simpa [Op.apply, log_usage, invoiceStatus] using h
    | pay iid2 meth now =>
      dsimp only [Op.apply]
      cases hP : pay_invoice iid2 meth now s with
      | error e2 => simpa using h
      | ok p =>
        obtain ⟨msg, s2⟩ := p
        obtain ⟨-, -, hs2⟩ := pay_state hP
        rw [hs2]
        simp only [invoiceStatus] at h ⊢
        exact paid_after_updateFirst iid iid2 s.invoices h



/-- Splitting the per-invoice cost sum over an append of line-item lists. -/
theorem filter_cost_sum_append (A B : List InvoiceLineItem) (j : Nat) :
    (((A ++ B).filter (fun li => li.invoice_id == j)).map (fun li => li.cost)).sum
      = ((A.filter (fun li => li.invoice_id == j)).map (fun li => li.cost)).sum
        + ((B.filter (fun li => li.invoice_id == j)).map (fun li => li.cost)).sum := by
  rw [List.filter_append, List.map_append, List.sum_append]

/-- All freshly created line items belong to the new invoice. -/
theorem mkLineItems_filter_self (invId fid : Nat) (ms : List UsageRecord) :
    (mkLineItems invId fid ms).filter (fun li => li.invoice_id == invId)
      = mkLineItems invId fid ms :=
  List.filter_eq_self.mpr (fun li hmem => by
    simp only [beq_iff_eq]
    exact mkLineItems_invoice_id invId fid ms li hmem)

/-- No freshly created line item belongs to a different invoice. -/
theorem mkLineItems_filter_ne (invId fid j : Nat) (hne : invId ≠ j)
    (ms : List UsageRecord) :
    (mkLineItems invId fid ms).filter (fun li => li.invoice_id == j) = [] := by
  rw [List.filter_eq_nil_iff]
  intro li hmem
  simp only [beq_iff_eq]
  rw [mkLineItems_invoice_id invId fid ms li hmem]
  exact hne

/-- C8: in a well-formed database, the invoice written by
`generate_invoice` has total equal to the sum of the cost fields of exactly
the line items created with it, and this equality is an invariant: every
endpoint call preserves it for every stored invoice (in particular no
operation changes a stored total or a stored line-item cost). -/
theorem invoice_total_matches_line_items (s : St) (hWF : s.WF) :
    (∀ tid now,
        ((generate_invoice tid now s).1.1).total
            = itemsTotal ((generate_invoice tid now s).2)
                ((generate_invoice tid now s).1.1).id
          ∧ (generate_invoice tid now s).1.1 ∈ ((generate_invoice tid now s).2).invoices)
    ∧ (∀ op : Op, InvoiceInv s → InvoiceInv (op.apply s)) := by
  obtain ⟨-, -, -, hinvWF, hliWF⟩ := hWF
  have hfilterOld : ∀ j, j = s.nextId →
      s.line_items.filter (fun li => li.invoice_id == j) = [] := by
    intro j hj
    rw [List.filter_eq_nil_iff]
    intro li hmem
    simp only [beq_iff_eq, hj]
    exact Nat.ne_of_lt (hliWF li hmem)
  have hgen : ∀ tid now, ((generate_invoice tid now s).1.1).total
      = itemsTotal ((generate_invoice tid now s).2) s.nextId := by
    intro tid now
    simp only [generate_invoice, itemsTotal]
    rw [filter_cost_sum_append, mkLineItems_filter_self, mkLineItems_map_cost,
      hfilterOld s.nextId rfl]
    simp
  constructor
  · intro tid now
    exact ⟨hgen tid now,
      List.mem_append_right _ (List.mem_singleton_self _)⟩
  · intro op hInv
    cases op with
    | createTeam n o now =>
      intro v hv
      have hv2 : v ∈ s.invoices := by simpa [Op.apply, create_team] using hv
      have hbase := hInv v hv2
      simpa [itemsTotal, Op.apply, create_team] using hbase
    | invite t e r i now =>
      intro v hv
      dsimp only [Op.apply] at hv ⊢
      cases hI : invite_team_member t e r i now s with
      | error e2 =>
        rw [hI] at hv
        exact hInv v hv
      | ok p =>
        obtain ⟨tok2, s2⟩ := p
        rw [hI] at hv
        replace hv : v ∈ s2.invoices := hv
        show v.total = itemsTotal s2 v.id
        obtain ⟨hInvs, hLi, -, -, -, -⟩ := invite_state hI
        rw [hInvs] at hv
        have hbase := hInv v hv
        simpa [itemsTotal, hLi] using hbase
    | join tok2 u now =>
      intro v hv
      dsimp only [Op.apply] at hv ⊢
      cases hJ : join_team tok2 u now s with
      | error e2 =>
        rw [hJ] at hv
        exact hInv v hv
      | ok p =>
        obtain ⟨msg, s2⟩ := p
        rw [hJ] at hv
        replace hv : v ∈ s2.invoices := hv
        show v.total = itemsTotal s2 v.id
        obtain ⟨inv, -, -, -, hs2⟩ := join_state hJ
        rw [hs2] at hv ⊢
        have hbase := hInv v (by simpa using hv)
        simpa [itemsTotal] using hbase
    | logUsage t u2 ty a un c now =>
      intro v hv
      have hv2 : v ∈ s.invoices := by simpa [Op.apply, log_usage] using hv
      have hbase := hInv v hv2
      simpa [itemsTotal, Op.apply, log_usage] using hbase
    | genInvoice t now =>
      intro v hv
      simp only [Op.apply, generate_invoice] at hv
      rw [List.mem_append] at hv
      rcases hv with hold | hnew
      · have hlt : v.id < s.nextId := hinvWF v hold
        have hbase := hInv v hold
        simp only [Op.apply, generate_invoice, itemsTotal]
        rw [filter_cost_sum_append,
          mkLineItems_filter_ne _ _ _ (Ne.symm (Nat.ne_of_lt hlt))]
        simpa [itemsTotal] using hbase
      · rw [List.mem_singleton] at hnew
        subst hnew
        simpa using hgen t now
    | pay iid2 meth now =>
      intro v hv
      dsimp only [Op.apply] at hv ⊢
      cases hP : pay_invoice iid2 meth now s with
      | error e2 =>
        rw [hP] at hv
        exact hInv v hv
      | ok p =>
        obtain ⟨msg, s2⟩ := p
        rw [hP] at hv
        replace hv : v ∈ s2.invoices := hv
        show v.total = itemsTotal s2 v.id
        obtain ⟨-, -, hs2⟩ := pay_state hP
        rw [hs2] at hv ⊢
        have hv2 := mem_updateFirst _ _ _ v (by simpa using hv)
        rcases hv2 with hvold | ⟨x, hx, hvx⟩
        · have hbase := hInv v hvold
          simpa [itemsTotal] using hbase
        · subst hvx
          have hbase := hInv x hx
          simpa [itemsTotal] using hbase


/-- Witness for the C9 theorem: concrete pending invoice creation, a
concrete successful payment of invoice 1, acceptance of a repeated payment,
and status stability of the already-paid invoice 0 under a further pay
call. -/
theorem invoice_status_pending_to_paid_one_way_witness :
    ((generate_invoice 0 nowEx stPaidInvoice).1.1).status = "pending"
    ∧ invoiceStatus stPaidAfter 1 = some "paid"
    ∧ stPaidAfter.payments.length = stPaidInvoice.payments.length + 1
    ∧ pay_invoice 0 "card" nowEx stPaidInvoice ≠ .error ⟨404, "Invoice not found."⟩
    ∧ invoiceStatus ((Op.pay 0 "wire" nowEx).apply stPaidInvoice) 0 = some "paid" := by
  have hthm := invoice_status_pending_to_paid_one_way stPaidInvoice
  have h2 := hthm.2.1 1 "card" nowEx "paid" stPaidAfter rfl
  exact ⟨hthm.1 0 nowEx, h2.1, h2.2,
    hthm.2.2.1 0 "card" nowEx rfl ⟨404, "Invoice not found."⟩,
    hthm.2.2.2 (Op.pay 0 "wire" nowEx) 0 rfl⟩

/-- Witness for the C8 theorem: the concrete invoice generated over
`stTwoUse` satisfies the total/line-item equality, and the invariant is
preserved across a concrete `generate_invoice` call. -/
theorem invoice_total_matches_line_items_witness :
    ((generate_invoice 0 nowEx stTwoUse).1.1).total
        = itemsTotal ((generate_invoice 0 nowEx stTwoUse).2)
            ((generate_invoice 0 nowEx stTwoUse).1.1).id
    ∧ InvoiceInv ((Op.genInvoice 0 nowEx).apply stTwoUse) := by
  have hthm := invoice_total_matches_line_items stTwoUse (by unfold St.WF; decide)
  exact ⟨(hthm.1 0 nowEx).1,
    hthm.2 (Op.genInvoice 0 nowEx) (by unfold InvoiceInv; decide)⟩

end TeamBilling
